import Mathlib

/-!
Verification development for the wrkr-web job-feed pipeline
(`src/app/(site)/jobs/page.tsx` and `src/utils/geo.ts`).

The TypeScript code is shallowly embedded:
* JavaScript numbers appearing in stored job records are modelled by
  `JNum` where the `typeof x === "number"` / `Number.isFinite` distinction
  matters (the coordinate extractor), and by exact rationals `ℚ`
  in the feed filter/sort model, where every number that reaches a
  comparison is finite or behaves like a dropped element.
* Firestore timestamps / JS `Date`s are modelled by `TsLike`, carrying
  milliseconds since the epoch as an integer; `setHours(0,0,0,0)`
  truncation is modelled as flooring to a multiple of a day
  (a fixed time zone).
* Asynchronous state updates are modelled as explicit state-transformer
  functions applied in an interleaving order.
-/

namespace Wrkr

/-- A JavaScript number: either a finite value (modelled exactly as a
rational), `NaN`, `Infinity` or `-Infinity`.  Anything that is not a
number at all is modelled by `Option.none` at the field's type. -/
inductive JNum where
  | fin (q : ℚ)
  | nan
  | inf
  | ninf
deriving DecidableEq, Repr

/-- Model of `Number.isFinite` on a `JNum`. -/
def JNum.isFiniteNum : JNum → Bool
  | .fin _ => true
  | _ => false

/-- The nested `location` object of a stored job record: any of the four
coordinate field names may be present with a number, absent, or present
with a non-number (both of the latter are `none`, since the code only
ever asks `typeof f === "number"`). -/
structure JLoc where
  latitude : Option JNum
  longitude : Option JNum
  lat : Option JNum
  lng : Option JNum
deriving DecidableEq, Repr

/-- The coordinate-bearing part of a raw job record, as consumed by
`jobCoords` in `src/app/(site)/jobs/page.tsx`: an optional nested
`location` object plus optional top-level fields. -/
structure JRec where
  location : Option JLoc
  latitude : Option JNum
  longitude : Option JNum
  lat : Option JNum
  lng : Option JNum
deriving DecidableEq, Repr

/-- Pair two fields when both pass the `typeof === "number"` check,
in the `{lat, lng}` order the code returns them. -/
def jpair : Option JNum → Option JNum → Option (JNum × JNum)
  | some a, some b => some (a, b)
  | _, _ => none

/-- Model of `jobCoords` (`src/app/(site)/jobs/page.tsx:111-134`): try the nested
`{latitude, longitude}` shape, then nested `{lat, lng}`, then top-level
`latitude`/`longitude`, then top-level `lat`/`lng`; each attempt only
requires `typeof === "number"` on both fields. -/
def jobCoordsJS (j : JRec) : Option (JNum × JNum) :=
  match j.location.bind (fun l => jpair l.latitude l.longitude) with
  | some c => some c
  | none =>
    match j.location.bind (fun l => jpair l.lat l.lng) with
    | some c => some c
    | none =>
      match jpair j.latitude j.longitude with
      | some c => some c
      | none => jpair j.lat j.lng

/-- Pair two fields only when both are *finite* numbers
(the spec's reading of "type-checks as two finite numbers"). -/
def jpairFin : Option JNum → Option JNum → Option (JNum × JNum)
  | some a, some b => if a.isFiniteNum && b.isFiniteNum then some (a, b) else none
  | _, _ => none

/-- Modelled from the spec's wording for the coordinate extractor:
"returns the first shape that type-checks as two finite numbers;
returns null if none match", with the same four-shape precedence.
This is the spec-side definition used to compare against the
source-side `jobCoordsJS`. -/
def extractCoordsSpec (j : JRec) : Option (JNum × JNum) :=
  match j.location.bind (fun l => jpairFin l.latitude l.longitude) with
  | some c => some c
  | none =>
    match j.location.bind (fun l => jpairFin l.lat l.lng) with
    | some c => some c
    | none =>
      match jpairFin j.latitude j.longitude with
      | some c => some c
      | none => jpairFin j.lat j.lng

/-! ## Feed model

Numbers reaching the feed's comparisons are modelled as exact
rationals; times as milliseconds since the epoch (`ℤ`). -/

/-- A value sitting in a `endDate`/`creationDate` field, as consumed by
`tsToDate` (`page.tsx:85-94`): falsy/absent, a Firestore-`Timestamp`-like
object (has a callable `toDate`), a JS `Date`, some other truthy
non-date value, or a value whose `toDate()` call throws. -/
inductive TsLike where
  | missing
  | timestamp (ms : ℤ)
  | jsdate (ms : ℤ)
  | other
  | throwing
deriving DecidableEq, Repr

/-- Model of `tsToDate` (`page.tsx:85-94`): result of the conversion, as epoch
milliseconds; `none` is JS `null` (falsy input, unrecognised shape, or a
`toDate()` that throws — the `catch` returns `null`). -/
def tsToDate : TsLike → Option ℤ
  | .missing => none
  | .timestamp ms => some ms
  | .jsdate ms => some ms
  | .other => none
  | .throwing => none

/-- Milliseconds per day. -/
def msPerDay : ℤ := 86400000

/-- The calendar day (as a day index) that an epoch-millisecond instant
falls on, in the fixed time zone of the model. -/
def dayOf (t : ℤ) : ℤ := t.fdiv msPerDay

/-- Model of `setHours(0,0,0,0)`: truncate an instant to the midnight starting
its calendar day. -/
def startOfDay (t : ℤ) : ℤ := msPerDay * dayOf t

/-- Nested `location` object, finite-number fields only (feed model). -/
structure QLoc where
  latitude : Option ℚ
  longitude : Option ℚ
  lat : Option ℚ
  lng : Option ℚ
deriving DecidableEq, Repr

/-- A job record as it reaches the feed (`JobFeedItem`, `page.tsx:44-67`).
Optional string fields are `none` when absent or not a string (the code
normalises both to `""`); optional numeric fields are `none` when the
`typeof === "number"` check fails. `standingOffer` is a truthiness test
in the code, so an absent field behaves as `false`. -/
structure Job where
  id : String
  title : Option String
  description : Option String
  address : Option String
  zip : Option String
  tip : Option ℚ
  pay : Option ℚ
  standingOffer : Bool
  endDate : TsLike
  creationDate : TsLike
  location : Option QLoc
  latitude : Option ℚ
  longitude : Option ℚ
  lat : Option ℚ
  lng : Option ℚ
deriving DecidableEq, Repr

/-- Pair two optional rationals when both are present. -/
def qpair : Option ℚ → Option ℚ → Option (ℚ × ℚ)
  | some a, some b => some (a, b)
  | _, _ => none

/-- Model of `jobCoords` (`page.tsx:111-134`) in the feed model: same four-shape
precedence as `jobCoordsJS`, over finite numbers. -/
def jobCoords (j : Job) : Option (ℚ × ℚ) :=
  match j.location.bind (fun l => qpair l.latitude l.longitude) with
  | some c => some c
  | none =>
    match j.location.bind (fun l => qpair l.lat l.lng) with
    | some c => some c
    | none =>
      match qpair j.latitude j.longitude with
      | some c => some c
      | none => qpair j.lat j.lng

/-- Model of `tipOf` (`page.tsx:74-78`): `t ?? p ?? 0` where `t`/`p` are the
`tip`/`pay` fields when number-typed. -/
def tipOf (j : Job) : ℚ :=
  match j.tip with
  | some t => t
  | none =>
    match j.pay with
    | some p => p
    | none => 0

/-- Model of `isActive` (`page.tsx:96-109`): standing offers are always active;
otherwise a job with no convertible end date is active; otherwise the
end date truncated to midnight must be on/after today's midnight.
`now` is the current instant in epoch milliseconds. -/
def isActive (now : ℤ) (j : Job) : Bool :=
  if j.standingOffer then true
  else
    match tsToDate j.endDate with
    | none => true
    | some d => decide (startOfDay now ≤ startOfDay d)

/-- Drop leading whitespace from a character list. -/
def dropWs : List Char → List Char
  | [] => []
  | c :: cs => if c.isWhitespace then dropWs cs else c :: cs

/-- JS `String.prototype.trim`: drop whitespace from both ends. -/
def jsTrim (s : String) : String := ⟨dropWs ((dropWs s.data.reverse).reverse)⟩

/-- JS `String.prototype.toLowerCase` (over the character list). -/
def jsToLower (s : String) : String := ⟨s.data.map Char.toLower⟩

/-- Model of `normalize` (`page.tsx:72`): trim a string, and turn a non-string
(modelled as `none`) into `""`. -/
def normalize : Option String → String
  | some s => jsTrim s
  | none => ""

/-- Does `needle` occur at the head of `hay`? (char-list helper for the
JS `String.prototype.includes` used by the text filter). -/
def charsLead : List Char → List Char → Bool
  | _, [] => true
  | [], _ :: _ => false
  | a :: as, b :: bs => a == b && charsLead as bs

/-- Does `needle` occur somewhere inside `hay`? -/
def charsWithin (needle : List Char) : List Char → Bool
  | [] => charsLead [] needle
  | a :: as => charsLead (a :: as) needle || charsWithin needle as

/-- JS `hay.includes(needle)`. -/
def strIncludes (hay needle : String) : Bool :=
  charsWithin needle.data hay.data

/-- One element of the `computed` memo (`page.tsx:293-300`): the job
together with its distance to the origin (when both the origin and the
job's coordinates exist) and a flag telling whether coordinates were
resolvable. -/
structure CItem where
  job : Job
  miles : Option ℚ
  hasCoords : Bool
deriving DecidableEq, Repr

/-- The `computed` memo (`page.tsx:293-300`), parametric in the distance
function (the code uses `haversineMiles`, treated separately over `ℝ`). -/
def computed (dist : ℚ × ℚ → ℚ × ℚ → ℚ) (origin : Option (ℚ × ℚ))
    (jobs : List Job) : List CItem :=
  jobs.map fun j =>
    let jc := jobCoords j
    { job := j
      miles := match origin, jc with
               | some o, some c => some (dist o c)
               | _, _ => none
      hasCoords := jc.isSome }

/-- The feed's sort selector (`SortMode`, `page.tsx:69`). -/
inductive SortMode where
  | newest
  | tipHigh
  | tipLow
  | distance
deriving DecidableEq, Repr

/-- Key for the `newest` sort: `tsToDate(creationDate)?.getTime() ?? 0`
(`page.tsx:340-341`), a missing date counting as the epoch. -/
def newestKey (x : CItem) : ℤ := (tsToDate x.job.creationDate).getD 0

/-- Key for the `distance` sort: the computed miles, a missing distance
counting as `+∞` (`page.tsx:349-355`). -/
def distKey (x : CItem) : WithTop ℚ :=
  match x.miles with
  | some m => (m : WithTop ℚ)
  | none => ⊤

/-- The sort step of `visibleJobs` (`page.tsx:336-356`): a stable sort
of the filtered list by the mode's comparator.  JS `Array.prototype.sort`
is stable and, for these consistent numeric comparators, agrees with a
stable merge sort by the corresponding `≤`. -/
def sortStep : SortMode → List CItem → List CItem
  | .newest, l => l.mergeSort fun a b => decide (newestKey b ≤ newestKey a)
  | .tipHigh, l => l.mergeSort fun a b => decide (tipOf b.job ≤ tipOf a.job)
  | .tipLow, l => l.mergeSort fun a b => decide (tipOf a.job ≤ tipOf b.job)
  | .distance, l => l.mergeSort fun a b => decide (distKey a ≤ distKey b)

/-- The text-filter predicate of `visibleJobs` (`page.tsx:318-324`):
case-insensitive substring match of the (already lower-cased) query
against the normalised title or description. -/
def textMatches (s : String) (j : Job) : Bool :=
  strIncludes (jsToLower (normalize j.title)) s ||
  strIncludes (jsToLower (normalize j.description)) s

/-- The radius-filter predicate of `visibleJobs` (`page.tsx:330-332`):
`typeof miles === "number" && miles <= radiusMiles`. -/
def radiusPass (radiusMiles : ℚ) (x : CItem) : Bool :=
  match x.miles with
  | some m => decide (m ≤ radiusMiles)
  | none => false

/-- The filtering stages of `visibleJobs` (`page.tsx:308-334`): activity
filter, then optional exact-ZIP filter, then optional case-insensitive
text filter, then the radius filter (fail-closed without an origin). -/
def filterStages (searchText zipFilter : String) (enableRadius : Bool)
    (origin : Option (ℚ × ℚ)) (radiusMiles : ℚ) (now : ℤ)
    (l : List CItem) : List CItem :=
  let s := jsToLower (normalize (some searchText))
  let z := normalize (some zipFilter)
  let l1 := l.filter fun x => isActive now x.job
  let l2 := if z ≠ "" then l1.filter (fun x => normalize x.job.zip == z) else l1
  let l3 := if s ≠ "" then l2.filter (fun x => textMatches s x.job) else l2
  if enableRadius then
    match origin with
    | none => []
    | some _ => l3.filter (radiusPass radiusMiles)
  else l3

/-- Model of `visibleJobs` (`page.tsx:308-358`): the filter stages followed by
the selected sort. -/
def visibleJobs (searchText zipFilter : String) (enableRadius : Bool)
    (origin : Option (ℚ × ℚ)) (radiusMiles : ℚ) (sort : SortMode) (now : ℤ)
    (l : List CItem) : List CItem :=
  sortStep sort
    (filterStages searchText zipFilter enableRadius origin radiusMiles now l)

/-- The "load more" merge (`page.tsx:209-214`): `seen` is the set of ids
already accumulated; walk the new page appending the items whose id is
not in `seen`.  (`seen` is fixed up front, exactly as in the code.) -/
def mergeJobs (prev items : List Job) : List Job :=
  let seen := prev.map (fun x => x.id)
  items.foldl (fun merged it =>
    if seen.contains it.id then merged else merged ++ [it]) prev

/-! ## Distance calculator (`src/utils/geo.ts:11-27`)

The floating-point `Math` functions are idealised as their exact
real-number counterparts. -/

/-- A coordinate pair as used by the distance calculator. -/
structure LatLngR where
  lat : ℝ
  lng : ℝ

/-- Degrees to radians (`toRad`, `geo.ts:13`). -/
noncomputable def toRad (x : ℝ) : ℝ := x * Real.pi / 180

/-- The haversine intermediate `h` (`geo.ts:24`):
`s1*s1 + cos(lat1)*cos(lat2)*s2*s2` where `s1 = sin(Δlat/2)` and
`s2 = sin(Δlng/2)`. -/
noncomputable def hvH (a b : LatLngR) : ℝ :=
  Real.sin (toRad (b.lat - a.lat) / 2) * Real.sin (toRad (b.lat - a.lat) / 2) +
    Real.cos (toRad a.lat) * Real.cos (toRad b.lat) *
      Real.sin (toRad (b.lng - a.lng) / 2) * Real.sin (toRad (b.lng - a.lng) / 2)

/-- The clamped argument handed to `Math.asin` (`geo.ts:25`):
`Math.min(1, Math.sqrt(h))`. -/
noncomputable def asinArg (a b : LatLngR) : ℝ := min 1 (Real.sqrt (hvH a b))

/-- Earth radius used by the code, in miles (`geo.ts:12`). -/
noncomputable def earthRadiusMiles : ℝ := 3958.7613

/-- Model of `haversineMiles` (`geo.ts:11-27`): great-circle distance in miles. -/
noncomputable def haversineMiles (a b : LatLngR) : ℝ :=
  earthRadiusMiles * (2 * Real.arcsin (asinArg a b))

/-! ## Geocoder (`src/utils/geo.ts:33-72`)

`geocodeZip` is modelled as a pure function of the ZIP string, the
current `localStorage` contents, and the network's (hypothetical)
response, returning the result together with whether the network was
consulted and which cache write was attempted. -/

/-- A raw `localStorage` entry under a `zipgeo:` key: either a string
that `JSON.parse` accepts (its parse modelled as an optional coordinate
pair, `none` standing for a parsed `null`-like value) or a malformed
string whose parse throws (the empty `catch` falls through). -/
inductive CacheEntry where
  | parsable (v : Option (ℚ × ℚ))
  | malformed
deriving DecidableEq, Repr

/-- One row of the geocoding service's JSON response: `lat`/`lon` are
the results of `Number(row.lat)` / `Number(row.lon)`, kept only when
finite (`Number.isFinite`, `geo.ts:62-64`). -/
structure NetRow where
  lat : Option ℚ
  lon : Option ℚ
deriving DecidableEq, Repr

/-- The network's behaviour for the single lookup request: a non-ok
response, or an ok response carrying a JSON array of rows. -/
inductive NetResp where
  | fail
  | ok (rows : List NetRow)
deriving DecidableEq, Repr

/-- Outcome of one `geocodeZip` call: the resolved coordinates, whether
a network request was issued, and the cache write attempted on success. -/
structure GeoOutcome where
  result : Option (ℚ × ℚ)
  networkCalled : Bool
  cacheWrite : Option (String × (ℚ × ℚ))
deriving DecidableEq, Repr

/-- Model of `geocodeZip` (`geo.ts:33-72`): trim; an empty ZIP resolves to `null`
with no network call; a parsable cache entry under `zipgeo:<zip>` is
returned with no network call; otherwise one network request is made,
soft-failing to `null`, and a successful parse is written back to the
cache under the same key. -/
def geocodeZip (zip : String) (cache : String → Option CacheEntry)
    (net : NetResp) : GeoOutcome :=
  let z := jsTrim zip
  if z = "" then ⟨none, false, none⟩
  else
    let key := "zipgeo:" ++ z
    match cache key with
    | some (.parsable v) => ⟨v, false, none⟩
    | some .malformed =>
      match net with
      | .fail => ⟨none, true, none⟩
      | .ok [] => ⟨none, true, none⟩
      | .ok (r :: _) =>
        match r.lat, r.lon with
        | some la, some lo => ⟨some (la, lo), true, some (key, (la, lo))⟩
        | _, _ => ⟨none, true, none⟩
    | none =>
      match net with
      | .fail => ⟨none, true, none⟩
      | .ok [] => ⟨none, true, none⟩
      | .ok (r :: _) =>
        match r.lat, r.lon with
        | some la, some lo => ⟨some (la, lo), true, some (key, (la, lo))⟩
        | _, _ => ⟨none, true, none⟩

/-! ## Asynchronous page-fetch state updates (`page.tsx:167-236`)

The component state touched by `fetchJobsPage` and the initial-load
effect, with the post-`await` continuations as explicit state
transformers.  Overlapping requests are modelled by applying the
continuations in an arbitrary interleaving order. -/

/-- The slice of component state written by a page fetch. -/
structure FeedState where
  jobs : List Job
  hasMore : Bool
  error : Option String
  loading : Bool
deriving DecidableEq, Repr

/-- Mode argument of `fetchJobsPage` (`page.tsx:167`). -/
inductive FetchMode where
  | reset
  | more
deriving DecidableEq, Repr

/-- What `await getDocs(q)` produced for one in-flight fetch: a page of
items together with whether the page was full (`docs.length === PAGE_SIZE`),
or a thrown error message. -/
inductive FetchOutcome where
  | ok (items : List Job) (full : Bool)
  | err (msg : String)
deriving DecidableEq, Repr

/-- The continuation `fetchJobsPage` runs after its `await`
(`page.tsx:200-218`): on success set `hasMore` and then set or merge the
job list according to the mode; on a throw record the error message.
Note that no cancellation or relevance flag is consulted. -/
def applyFetchOutcome (mode : FetchMode) (r : FetchOutcome)
    (s : FeedState) : FeedState :=
  match r with
  | .err m => { s with error := some m }
  | .ok items full =>
    let s1 := { s with hasMore := full }
    match mode with
    | .reset => { s1 with jobs := items }
    | .more => { s1 with jobs := mergeJobs s1.jobs items }

/-- The `finally` block of the initial-load effect (`page.tsx:221-236`):
`if (!cancelled) setLoading(false)` — the only state mutation guarded by
the effect's captured cancellation flag. -/
def applyInitialLoadFinally (cancelled : Bool) (s : FeedState) : FeedState :=
  if cancelled then s else { s with loading := false }

/-! ## Concrete records used by witnesses and counterexamples -/

/-- A job record with every optional field absent. -/
def baseJob : Job :=
  { id := "j0", title := none, description := none, address := none
    zip := none, tip := none, pay := none, standingOffer := false
    endDate := .missing, creationDate := .missing, location := none
    latitude := none, longitude := none, lat := none, lng := none }

/-- A record whose nested `location` carries `NaN` coordinates while its
top-level `lat`/`lng` fields carry finite ones. -/
def cexRec : JRec :=
  { location := some { latitude := some .nan, longitude := some .nan
                       lat := none, lng := none }
    latitude := none, longitude := none
    lat := some (.fin 1), lng := some (.fin 2) }

/-- A record carrying both the nested `{latitude, longitude}` shape and
top-level `lat`/`lng` fields, all finite. -/
def bothShapesRec : JRec :=
  { location := some { latitude := some (.fin 10), longitude := some (.fin 20)
                       lat := none, lng := none }
    latitude := none, longitude := none
    lat := some (.fin 30), lng := some (.fin 40) }

/-- Job "a". -/
def jobA : Job := { baseJob with id := "a" }

/-- Job "b". -/
def jobB : Job := { baseJob with id := "b" }

/-- Job "c". -/
def jobC : Job := { baseJob with id := "c" }

/-- A second record with id "b" (the server returning an overlapping
record on the next page). -/
def jobBdup : Job := { baseJob with id := "b", tip := some 7 }

/-- Feed state before any fetch completes. -/
def initState : FeedState := { jobs := [], hasMore := true, error := none, loading := true }

/-- A warmed geocode cache holding coordinates for ZIP `10001`. -/
def warmCache : String → Option CacheEntry := fun k =>
  if k = "zipgeo:10001" then some (.parsable (some (3, 4))) else none

/-- A computed feed item with no resolvable distance. -/
def itemNoCoords : CItem := { job := baseJob, miles := none, hasCoords := false }

/-- Is an `endDate` value one of the shapes the spec's data model admits
(a convertible time point, or absent)?  `other`/`throwing` values fall
outside the spec's data model and are covered separately. -/
def TsLike.isStandardShape : TsLike → Bool
  | .missing => true
  | .timestamp _ => true
  | .jsdate _ => true
  | .other => false
  | .throwing => false

/-- A job whose `endDate` holds a value that is neither Timestamp-like
nor a `Date`. -/
def jobOddEnd : Job := { baseJob with endDate := TsLike.other }

/-- The computed feed item for `jobOddEnd` with no origin set. -/
def itemOddEnd : CItem := { job := jobOddEnd, miles := none, hasCoords := false }

/-- A job carrying nested `{latitude, longitude}` coordinates. -/
def jobLoc : Job :=
  { baseJob with
      location := some { latitude := some 1, longitude := some 2
                         lat := none, lng := none } }

/-- The computed feed item for `jobLoc` under the constant distance 5. -/
def itemLoc5 : CItem := { job := jobLoc, miles := some 5, hasCoords := true }

/-! ## Helper lemmas -/

theorem sortStep_perm (m : SortMode) (l : List CItem) :
    List.Perm (sortStep m l) l := by
  cases m <;> exact List.mergeSort_perm _ _

theorem mem_sortStep {m : SortMode} {l : List CItem} {x : CItem} :
    x ∈ sortStep m l ↔ x ∈ l := by
  cases m <;> simp [sortStep]

theorem mem_filterStages {st zf : String} {er : Bool} {o : Option (ℚ × ℚ)}
    {rad : ℚ} {now : ℤ} {l : List CItem} {x : CItem} :
    x ∈ filterStages st zf er o rad now l ↔
      x ∈ l ∧ isActive now x.job = true ∧
      (jsTrim zf ≠ "" → normalize x.job.zip = jsTrim zf) ∧
      (jsToLower (jsTrim st) ≠ "" →
        textMatches (jsToLower (jsTrim st)) x.job = true) ∧
      (er = true → ∃ op, o = some op ∧ radiusPass rad x = true) := by
  unfold filterStages
  simp only [normalize]
  cases er with
  | false =>
    by_cases hz : jsTrim zf = "" <;> by_cases hs : jsToLower (jsTrim st) = "" <;>
      · simp [hz, hs, List.mem_filter]
        try tauto
  | true =>
    cases o with
    | none =>
      by_cases hz : jsTrim zf = "" <;> by_cases hs : jsToLower (jsTrim st) = "" <;>
        · simp [hz, hs, List.mem_filter]
          try tauto
    | some op =>
      by_cases hz : jsTrim zf = "" <;> by_cases hs : jsToLower (jsTrim st) = "" <;>
        · simp [hz, hs, List.mem_filter]
          try tauto

theorem mem_visibleJobs {st zf : String} {er : Bool} {o : Option (ℚ × ℚ)}
    {rad : ℚ} {srt : SortMode} {now : ℤ} {l : List CItem} {x : CItem} :
    x ∈ visibleJobs st zf er o rad srt now l ↔
      x ∈ filterStages st zf er o rad now l := by
  unfold visibleJobs
  exact mem_sortStep

theorem computed_spec {dist : ℚ × ℚ → ℚ × ℚ → ℚ} {o : Option (ℚ × ℚ)}
    {jobs : List Job} {x : CItem} (hx : x ∈ computed dist o jobs) :
    x.job ∈ jobs ∧
    (∀ op, o = some op → x.miles = (jobCoords x.job).map (dist op)) ∧
    (o = none → x.miles = none) ∧
    x.hasCoords = (jobCoords x.job).isSome := by
  unfold computed at hx
  obtain ⟨j, hj, rfl⟩ := List.mem_map.mp hx
  refine ⟨hj, ?_, ?_, rfl⟩
  · rintro op rfl
    cases h : jobCoords j <;> simp [h]
  · rintro rfl
    rfl

theorem mergeJobs_eq (prev items : List Job) :
    mergeJobs prev items =
      prev ++ items.filter
        (fun it => !((prev.map (fun x => x.id)).contains it.id)) := by
  unfold mergeJobs
  generalize (prev.map (fun x => x.id)) = seen
  suffices h : ∀ (p : Job → Bool) (its acc : List Job),
      its.foldl (fun merged it =>
        if p it then merged else merged ++ [it]) acc =
      acc ++ its.filter (fun it => !(p it)) by
    exact h (fun it => seen.contains it.id) items prev
  intro p its
  induction its with
  | nil => intro acc; simp
  | cons a as ih =>
    intro acc
    rw [List.foldl_cons, List.filter_cons]
    cases ha : p a with
    | false =>
      rw [if_neg (by simp [ha]), if_pos (by simp [ha]), ih]
      simp
    | true =>
      rw [if_pos (by simp [ha]), if_neg (by simp [ha])]
      exact ih acc

theorem startOfDay_le_iff {s t : ℤ} :
    startOfDay s ≤ startOfDay t ↔ dayOf s ≤ dayOf t := by
  unfold startOfDay msPerDay
  constructor
  · intro h
    exact le_of_mul_le_mul_left h (by norm_num)
  · intro h
    exact mul_le_mul_of_nonneg_left h (by norm_num)

theorem isActive_eq (now : ℤ) (j : Job) (d : ℤ) (hso : j.standingOffer = false)
    (hd : tsToDate j.endDate = some d) :
    isActive now j = decide (startOfDay now ≤ startOfDay d) := by
  unfold isActive
  rw [hso, hd]
  rfl

theorem pairwise_mergeSortBool {α : Type _} (le : α → α → Bool)
    (htrans : ∀ a b c, le a b = true → le b c = true → le a c = true)
    (htotal : ∀ a b, le a b = true ∨ le b a = true) (l : List α) :
    (List.mergeSort l le).Pairwise (fun a b => le a b = true) :=
  List.sorted_mergeSort (fun a b c hab hbc => htrans a b c hab hbc)
    (fun a b => by
      rcases htotal a b with h | h <;> simp [h])
    l

theorem hvH_comm (a b : LatLngR) : hvH a b = hvH b a := by
  unfold hvH toRad
  have h1 : (b.lat - a.lat) * Real.pi / 180 / 2 =
      -((a.lat - b.lat) * Real.pi / 180 / 2) := by ring
  have h2 : (b.lng - a.lng) * Real.pi / 180 / 2 =
      -((a.lng - b.lng) * Real.pi / 180 / 2) := by ring
  rw [h1, h2, Real.sin_neg, Real.sin_neg]
  ring

theorem sortStep_sorted_newest (l : List CItem) :
    (sortStep SortMode.newest l).Pairwise
      (fun x y => newestKey y ≤ newestKey x) := by
  have h := pairwise_mergeSortBool
    (fun a b : CItem => decide (newestKey b ≤ newestKey a))
    (fun a b c h1 h2 => by
      simp only [decide_eq_true_eq] at h1 h2 ⊢
      exact le_trans h2 h1)
    (fun a b => by
      simp only [decide_eq_true_eq]
      exact le_total _ _)
    l
  exact h.imp (fun hab => by simpa using hab)

theorem sortStep_sorted_tipHigh (l : List CItem) :
    (sortStep SortMode.tipHigh l).Pairwise
      (fun x y => tipOf y.job ≤ tipOf x.job) := by
  have h := pairwise_mergeSortBool
    (fun a b : CItem => decide (tipOf b.job ≤ tipOf a.job))
    (fun a b c h1 h2 => by
      simp only [decide_eq_true_eq] at h1 h2 ⊢
      exact le_trans h2 h1)
    (fun a b => by
      simp only [decide_eq_true_eq]
      exact le_total _ _)
    l
  exact h.imp (fun hab => by simpa using hab)

theorem sortStep_sorted_tipLow (l : List CItem) :
    (sortStep SortMode.tipLow l).Pairwise
      (fun x y => tipOf x.job ≤ tipOf y.job) := by
  have h := pairwise_mergeSortBool
    (fun a b : CItem => decide (tipOf a.job ≤ tipOf b.job))
    (fun a b c h1 h2 => by
      simp only [decide_eq_true_eq] at h1 h2 ⊢
      exact le_trans h1 h2)
    (fun a b => by
      simp only [decide_eq_true_eq]
      exact le_total _ _)
    l
  exact h.imp (fun hab => by simpa using hab)

theorem sortStep_sorted_distance (l : List CItem) :
    (sortStep SortMode.distance l).Pairwise
      (fun x y => distKey x ≤ distKey y) := by
  have h := pairwise_mergeSortBool
    (fun a b : CItem => decide (distKey a ≤ distKey b))
    (fun a b c h1 h2 => by
      simp only [decide_eq_true_eq] at h1 h2 ⊢
      exact le_trans h1 h2)
    (fun a b => by
      simp only [decide_eq_true_eq]
      exact le_total _ _)
    l
  exact h.imp (fun hab => by simpa using hab)

/-! ## Claim theorems -/

/-- C4: the resolved tip equals the `tip` field whenever `tip` is a
number (even `0`); otherwise the legacy `pay` field when it is a
number; otherwise `0`. -/
theorem c4_main (j : Job) :
    (∀ t, j.tip = some t → tipOf j = t) ∧
    (j.tip = none → ∀ p, j.pay = some p → tipOf j = p) ∧
    (j.tip = none → j.pay = none → tipOf j = 0) := by
  refine ⟨?_, ?_, ?_⟩
  · intro t ht
    simp [tipOf, ht]
  · intro ht p hp
    simp [tipOf, ht, hp]
  · intro ht hp
    simp [tipOf, ht, hp]

/-- C4 witness: a record with `tip` absent and `pay = 15` resolves to
`15`, and a record with `tip = 0` and `pay = 15` resolves to `0`. -/
theorem c4_witness :
    tipOf { baseJob with tip := none, pay := some 15 } = 15 ∧
    tipOf { baseJob with tip := some 0, pay := some 15 } = 0 := by
  constructor
  · exact (c4_main _).2.1 rfl 15 rfl
  · exact (c4_main _).1 0 rfl

/-- C1 counterexample: `cexRec` has a nested `location` whose
`latitude`/`longitude` are `NaN` (number-typed but not finite) and
finite top-level `lat`/`lng`.  The claim's extractor — first shape that
type-checks as two *finite* numbers (`extractCoordsSpec`) — returns the
top-level pair `(1, 2)`, but the code (`jobCoordsJS`) returns the
nested `NaN` pair: the code never checks finiteness. -/
theorem c1_counterexample :
    jobCoordsJS cexRec = some (JNum.nan, JNum.nan) ∧
    extractCoordsSpec cexRec = some (JNum.fin 1, JNum.fin 2) ∧
    jobCoordsJS cexRec ≠ extractCoordsSpec cexRec := by
  refine ⟨rfl, rfl, ?_⟩
  decide

/-- C1 (amended): the extractor tries nested `{latitude, longitude}`,
nested `{lat, lng}`, top-level `latitude`/`longitude`, top-level
`lat`/`lng`, in that order, and returns the first shape whose two
fields are number-typed (`NaN`/infinite values included — finiteness is
not checked); it returns null when no shape matches.  In particular the
nested `{latitude, longitude}` shape beats top-level `lat`/`lng`. -/
theorem c1_main (j : JRec) :
    (∀ l a b, j.location = some l → l.latitude = some a →
      l.longitude = some b → jobCoordsJS j = some (a, b)) ∧
    (∀ l a b, j.location = some l → jpair l.latitude l.longitude = none →
      l.lat = some a → l.lng = some b → jobCoordsJS j = some (a, b)) ∧
    (∀ a b, (j.location.bind fun l => jpair l.latitude l.longitude) = none →
      (j.location.bind fun l => jpair l.lat l.lng) = none →
      j.latitude = some a → j.longitude = some b →
      jobCoordsJS j = some (a, b)) ∧
    (∀ a b, (j.location.bind fun l => jpair l.latitude l.longitude) = none →
      (j.location.bind fun l => jpair l.lat l.lng) = none →
      jpair j.latitude j.longitude = none →
      j.lat = some a → j.lng = some b → jobCoordsJS j = some (a, b)) ∧
    ((j.location.bind fun l => jpair l.latitude l.longitude) = none →
      (j.location.bind fun l => jpair l.lat l.lng) = none →
      jpair j.latitude j.longitude = none → jpair j.lat j.lng = none →
      jobCoordsJS j = none) := by
  refine ⟨?_, ?_, ?_, ?_, ?_⟩
  · intro l a b hl ha hb
    unfold jobCoordsJS
    rw [hl]
    simp [Option.bind, ha, hb, jpair]
  · intro l a b hl h1 ha hb
    have hb1 : (j.location.bind fun l0 => jpair l0.latitude l0.longitude) = none := by
      rw [hl]
      simpa [Option.bind] using h1
    unfold jobCoordsJS
    rw [hb1, hl]
    simp [Option.bind, ha, hb, jpair]
  · intro a b h1 h2 ha hb
    unfold jobCoordsJS
    rw [h1, h2]
    simp [ha, hb, jpair]
  · intro a b h1 h2 h3 ha hb
    unfold jobCoordsJS
    rw [h1, h2, h3]
    simp [ha, hb, jpair]
  · intro h1 h2 h3 h4
    unfold jobCoordsJS
    rw [h1, h2, h3, h4]

/-- C1 witness: on `bothShapesRec`, which carries both a nested
`{latitude, longitude}` object and top-level `lat`/`lng` fields, the
nested pair `(10, 20)` is returned. -/
theorem c1_witness :
    jobCoordsJS bothShapesRec = some (JNum.fin 10, JNum.fin 20) :=
  (c1_main bothShapesRec).1 _ (JNum.fin 10) (JNum.fin 20) rfl rfl rfl

/-- C10: a job whose `endDate` is present but not convertible (neither
Timestamp-like nor a `Date`, or throwing during conversion) is treated
exactly like one with no end date: `tsToDate` yields null, `isActive`
is true even with `standingOffer = false`, and the job survives the
feed's activity filter (shown with the other filters disabled). -/
theorem c10_main (now : ℤ) (j : Job)
    (h : j.endDate = TsLike.other ∨ j.endDate = TsLike.throwing) :
    tsToDate j.endDate = none ∧ isActive now j = true ∧
    (∀ (srt : SortMode) (rad : ℚ) (l : List CItem) (x : CItem),
      x ∈ l → x.job = j → x ∈ visibleJobs "" "" false none rad srt now l) := by
  have hnone : tsToDate j.endDate = none := by
    rcases h with h | h <;> simp [h, tsToDate]
  have hact : isActive now j = true := by
    simp [isActive, hnone]
  refine ⟨hnone, hact, ?_⟩
  intro srt rad l x hx hxj
  apply mem_visibleJobs.mpr
  apply mem_filterStages.mpr
  refine ⟨hx, by rw [hxj]; exact hact, ?_, ?_, by simp⟩
  · intro hc
    exact absurd (by decide) hc
  · intro hc
    exact absurd (by decide) hc

/-- C10 witness: a job with `standingOffer = false` and a
non-convertible `endDate` is active and appears in the feed. -/
theorem c10_witness :
    isActive 0 jobOddEnd = true ∧
    itemOddEnd ∈ visibleJobs "" "" false none 10 SortMode.newest 0 [itemOddEnd] := by
  constructor
  · exact (c10_main 0 jobOddEnd (Or.inl rfl)).2.1
  · exact (c10_main 0 jobOddEnd (Or.inl rfl)).2.2 SortMode.newest 10
      [itemOddEnd] itemOddEnd (by simp) rfl

/-- C3: over the spec's data model for `endDate` (a convertible time
point or absent), a job is active iff `standingOffer` is true, or
`endDate` is absent, or `endDate`'s calendar day is on/after the
current calendar day.  Consequently a standing offer with a past
`endDate` is active, a non-standing job ending yesterday is inactive,
and a job ending today is active; and every job in the feed is
active. -/
theorem c3_main (now : ℤ) (j : Job) :
    (j.endDate.isStandardShape = true →
      (isActive now j = true ↔
        j.standingOffer = true ∨ j.endDate = TsLike.missing ∨
        ∃ d, tsToDate j.endDate = some d ∧ dayOf now ≤ dayOf d)) ∧
    (j.standingOffer = true → isActive now j = true) ∧
    (j.standingOffer = false →
      ∀ d, tsToDate j.endDate = some d → dayOf d = dayOf now - 1 →
        isActive now j = false) ∧
    (∀ d, tsToDate j.endDate = some d → dayOf d = dayOf now →
      isActive now j = true) ∧
    (∀ (st zf : String) (er : Bool) (o : Option (ℚ × ℚ)) (rad : ℚ)
      (srt : SortMode) (l : List CItem) (x : CItem),
      x ∈ visibleJobs st zf er o rad srt now l → isActive now x.job = true) := by
  refine ⟨?_, ?_, ?_, ?_, ?_⟩
  · intro hshape
    cases hso : j.standingOffer with
    | true => simp [isActive, hso]
    | false =>
      cases he : j.endDate <;>
        simp [he, TsLike.isStandardShape] at hshape ⊢ <;>
        simp [isActive, hso, he, tsToDate, startOfDay_le_iff]
  · intro hso
    simp [isActive, hso]
  · intro hso d hd hday
    rw [isActive_eq now j d hso hd, decide_eq_false_iff_not, startOfDay_le_iff]
    omega
  · intro d hd hday
    cases hso : j.standingOffer with
    | true => simp [isActive, hso]
    | false =>
      rw [isActive_eq now j d hso hd, decide_eq_true_eq, startOfDay_le_iff]
      omega
  · intro st zf er o rad srt l x hx
    exact (mem_filterStages.mp (mem_visibleJobs.mp hx)).2.1

/-- C3 witness: with "now" on day 2, a standing offer ending on day 0
is active, a non-standing job ending on day 1 (yesterday) is inactive,
and a job ending during day 2 (today) is active. -/
theorem c3_witness :
    isActive (2 * 86400000)
      { baseJob with standingOffer := true, endDate := TsLike.timestamp 0 } = true ∧
    isActive (2 * 86400000)
      { baseJob with endDate := TsLike.timestamp 86400000 } = false ∧
    isActive (2 * 86400000)
      { baseJob with endDate := TsLike.timestamp (2 * 86400000 + 3600000) } = true := by
  refine ⟨?_, ?_, ?_⟩
  · exact (c3_main (2 * 86400000) _).2.1 rfl
  · exact (c3_main (2 * 86400000) _).2.2.1 rfl 86400000 rfl (by decide)
  · exact (c3_main (2 * 86400000) _).2.2.2.1 (2 * 86400000 + 3600000) rfl (by decide)

/-- C2: with the radius filter enabled and no origin, the feed is empty
for every input; with an origin set, the feed keeps exactly the
filter-passing jobs whose resolved coordinates exist and whose computed
distance to the origin is at most the radius (jobs without resolvable
coordinates are dropped). -/
theorem c2_main (dist : ℚ × ℚ → ℚ × ℚ → ℚ) (st zf : String) (rad : ℚ)
    (srt : SortMode) (now : ℤ) :
    (∀ l : List CItem, visibleJobs st zf true none rad srt now l = []) ∧
    (∀ (o : ℚ × ℚ) (jobs : List Job) (x : CItem),
      x ∈ visibleJobs st zf true (some o) rad srt now
            (computed dist (some o) jobs) ↔
        x ∈ computed dist (some o) jobs ∧ isActive now x.job = true ∧
        (jsTrim zf ≠ "" → normalize x.job.zip = jsTrim zf) ∧
        (jsToLower (jsTrim st) ≠ "" →
          textMatches (jsToLower (jsTrim st)) x.job = true) ∧
        ∃ c, jobCoords x.job = some c ∧ dist o c ≤ rad) ∧
    (∀ (o : ℚ × ℚ) (jobs : List Job) (x : CItem),
      x ∈ visibleJobs st zf true (some o) rad srt now
            (computed dist (some o) jobs) → x.hasCoords = true) := by
  have hchar : ∀ (o : ℚ × ℚ) (jobs : List Job) (x : CItem),
      x ∈ visibleJobs st zf true (some o) rad srt now
            (computed dist (some o) jobs) ↔
        x ∈ computed dist (some o) jobs ∧ isActive now x.job = true ∧
        (jsTrim zf ≠ "" → normalize x.job.zip = jsTrim zf) ∧
        (jsToLower (jsTrim st) ≠ "" →
          textMatches (jsToLower (jsTrim st)) x.job = true) ∧
        ∃ c, jobCoords x.job = some c ∧ dist o c ≤ rad := by
    intro o jobs x
    rw [mem_visibleJobs, mem_filterStages]
    constructor
    · rintro ⟨hxl, hact, hzip, htext, hrad⟩
      obtain ⟨op, hop, hpass⟩ := hrad rfl
      have hop' : o = op := Option.some.inj hop
      subst hop'
      have hms := ((computed_spec hxl).2.1) _ rfl
      refine ⟨hxl, hact, hzip, htext, ?_⟩
      unfold radiusPass at hpass
      rw [hms] at hpass
      cases hc : jobCoords x.job with
      | none =>
        rw [hc, Option.map_none'] at hpass
        simp at hpass
      | some c =>
        rw [hc, Option.map_some'] at hpass
        exact ⟨c, rfl, by simpa using hpass⟩
    · rintro ⟨hxl, hact, hzip, htext, c, hc, hle⟩
      refine ⟨hxl, hact, hzip, htext, fun _ => ⟨o, rfl, ?_⟩⟩
      have hms := ((computed_spec hxl).2.1) o rfl
      unfold radiusPass
      rw [hms, hc]
      simpa using hle
  refine ⟨?_, hchar, ?_⟩
  · intro l
    cases srt <;> simp [visibleJobs, filterStages, sortStep]
  · intro o jobs x hx
    obtain ⟨hxl, -, -, -, c, hc, -⟩ := (hchar o jobs x).mp hx
    have := (computed_spec hxl).2.2.2
    rw [this, hc]
    rfl

/-- C2 witness: with radius on and no origin the feed is empty; with an
origin set, a job 5 miles away passes a 10-mile radius. -/
theorem c2_witness :
    visibleJobs "" "" true none 10 SortMode.newest 0 [itemNoCoords] = [] ∧
    itemLoc5 ∈ visibleJobs "" "" true (some (0, 0)) 10 SortMode.newest 0
      (computed (fun _ _ => 5) (some (0, 0)) [jobLoc]) := by
  constructor
  · exact (c2_main (fun _ _ => 5) "" "" 10 SortMode.newest 0).1 [itemNoCoords]
  · exact ((c2_main (fun _ _ => 5) "" "" 10 SortMode.newest 0).2.1
      (0, 0) [jobLoc] itemLoc5).mpr
      ⟨by decide, rfl, by intro hc; exact absurd (by decide) hc,
       by intro hc; exact absurd (by decide) hc,
       ⟨(1, 2), rfl, by norm_num⟩⟩

/-- C5: the "load more" merge keeps the previously accumulated list as
a prefix, in order, and appends exactly the new page's items whose id
is not already present; if the accumulated ids and the page's ids are
each duplicate-free (Firestore document ids are unique within one
query snapshot), the merged ids are duplicate-free — even when the
page overlaps the accumulated list. -/
theorem c5_main (prev items : List Job) :
    mergeJobs prev items =
      prev ++ items.filter
        (fun it => !((prev.map (fun x => x.id)).contains it.id)) ∧
    ((prev.map (fun x => x.id)).Nodup → (items.map (fun x => x.id)).Nodup →
      ((mergeJobs prev items).map (fun x => x.id)).Nodup) := by
  refine ⟨mergeJobs_eq prev items, ?_⟩
  intro hp hi
  rw [mergeJobs_eq, List.map_append]
  refine List.Nodup.append hp ?_ ?_
  · exact ((List.filter_sublist items).map (fun x => x.id)).nodup hi
  · intro a ha hb
    obtain ⟨it, hit, rfl⟩ := List.mem_map.mp hb
    have hmem := (List.mem_filter.mp hit).2
    simp only [Bool.not_eq_true', List.contains, List.elem_eq_mem,
      decide_eq_false_iff_not] at hmem
    exact hmem ha

/-- C5 witness: after page one `[jobA, jobB]`, a second page
`[jobBdup, jobC]` overlapping on id "b" merges to `[jobA, jobB, jobC]`
with duplicate-free ids. -/
theorem c5_witness :
    mergeJobs [jobA, jobB] [jobBdup, jobC] = [jobA, jobB, jobC] ∧
    ((mergeJobs [jobA, jobB] [jobBdup, jobC]).map (fun x => x.id)).Nodup := by
  constructor
  · rw [(c5_main [jobA, jobB] [jobBdup, jobC]).1]
    decide
  · exact (c5_main [jobA, jobB] [jobBdup, jobC]).2 (by decide) (by decide)

/-- C6: each sort mode returns a permutation of the filtered list that
is pairwise ordered by its key: `newest` descending by creation date
(missing date = 0, the earliest), `tipHigh`/`tipLow`
descending/ascending by resolved tip, `distance` ascending by computed
distance with a missing distance treated as `⊤` (sorting last). -/
theorem c6_main (st zf : String) (er : Bool) (o : Option (ℚ × ℚ))
    (rad : ℚ) (now : ℤ) (l : List CItem) :
    (∀ m, List.Perm (visibleJobs st zf er o rad m now l)
      (filterStages st zf er o rad now l)) ∧
    (visibleJobs st zf er o rad SortMode.newest now l).Pairwise
      (fun x y => newestKey y ≤ newestKey x) ∧
    (visibleJobs st zf er o rad SortMode.tipHigh now l).Pairwise
      (fun x y => tipOf y.job ≤ tipOf x.job) ∧
    (visibleJobs st zf er o rad SortMode.tipLow now l).Pairwise
      (fun x y => tipOf x.job ≤ tipOf y.job) ∧
    (visibleJobs st zf er o rad SortMode.distance now l).Pairwise
      (fun x y => distKey x ≤ distKey y) ∧
    (∀ x : CItem, tsToDate x.job.creationDate = none → newestKey x = 0) ∧
    (∀ x : CItem, x.miles = none → distKey x = ⊤) := by
  refine ⟨fun m => sortStep_perm m _, ?_, ?_, ?_, ?_, ?_, ?_⟩
  · exact sortStep_sorted_newest _
  · exact sortStep_sorted_tipHigh _
  · exact sortStep_sorted_tipLow _
  · exact sortStep_sorted_distance _
  · intro x hx
    simp [newestKey, hx]
  · intro x hx
    simp [distKey, hx]

/-- C6 witness: the default keys at a record with no creation date and
no computable distance. -/
theorem c6_witness : newestKey itemNoCoords = 0 ∧ distKey itemNoCoords = ⊤ := by
  constructor
  · exact (c6_main "" "" false none 0 0 []).2.2.2.2.2.1 itemNoCoords rfl
  · exact (c6_main "" "" false none 0 0 []).2.2.2.2.2.2 itemNoCoords rfl

/-- C7: the distance function is symmetric and zero on equal points,
and the argument passed to the inverse sine is clamped to at most 1.
The floating-point `Math` routines are idealised as exact real
functions; the haversine formula and the radius 3958.7613 are embedded
in the definitions of `hvH` and `haversineMiles`. -/
theorem c7_main (a b : LatLngR) :
    haversineMiles a b = haversineMiles b a ∧
    haversineMiles a a = 0 ∧
    asinArg a b ≤ 1 := by
  refine ⟨?_, ?_, min_le_left _ _⟩
  · unfold haversineMiles asinArg
    rw [hvH_comm]
  · unfold haversineMiles asinArg
    have h0 : hvH a a = 0 := by
      unfold hvH toRad
      simp [sub_self]
    rw [h0, Real.sqrt_zero, min_eq_right zero_le_one, Real.arcsin_zero]
    ring

/-- C8: a ZIP whose trimmed form is empty resolves to null with no
network request; a ZIP whose trimmed form has a (well-formed) cache
entry under `zipgeo:<zip>` returns the cached value with no network
request — for any network behaviour. -/
theorem c8_main (zip : String) (cache : String → Option CacheEntry)
    (net : NetResp) :
    (jsTrim zip = "" →
      geocodeZip zip cache net = ⟨none, false, none⟩) ∧
    (∀ v, jsTrim zip ≠ "" →
      cache ("zipgeo:" ++ jsTrim zip) = some (CacheEntry.parsable v) →
      geocodeZip zip cache net = ⟨v, false, none⟩) := by
  constructor
  · intro h
    simp [geocodeZip, h]
  · intro v h hcache
    simp [geocodeZip, h, hcache]

/-- C8 witness: a blank ZIP resolves to null with no network call, and
ZIP " 10001 " hits the warmed cache with no network call, both under a
failing network. -/
theorem c8_witness :
    geocodeZip "   " warmCache NetResp.fail = ⟨none, false, none⟩ ∧
    geocodeZip " 10001 " warmCache NetResp.fail = ⟨some (3, 4), false, none⟩ := by
  constructor
  · exact (c8_main "   " warmCache NetResp.fail).1 (by decide)
  · exact (c8_main " 10001 " warmCache NetResp.fail).2 (some (3, 4))
      (by decide) (by decide)

/-- C9 counterexample: the continuation `fetchJobsPage` runs after its
`await` (`applyFetchOutcome`) consults no relevance flag.  Apply the
later request's response (`[jobB]`) and then the superseded earlier
request's response (`[jobA]`): the stale response overwrites the feed
state the later request produced, contradicting the claim that a
superseded response never overwrites it. -/
theorem c9_counterexample :
    (applyFetchOutcome FetchMode.reset (FetchOutcome.ok [jobA] true)
      (applyFetchOutcome FetchMode.reset (FetchOutcome.ok [jobB] true)
        initState)).jobs = [jobA] ∧
    (applyFetchOutcome FetchMode.reset (FetchOutcome.ok [jobB] true)
      initState).jobs = [jobB] ∧
    jobA ≠ jobB := by
  refine ⟨rfl, rfl, ?_⟩
  decide

/-- C9 (amended): only the initial-load effect checks its captured
cancellation flag, and only before clearing the loading indicator; the
post-await response mutations (`setHasMore`, `setJobs`, `setError`)
are applied unconditionally, so a superseded response can overwrite a
later request's feed state. -/
theorem c9_main (s : FeedState) (items : List Job) (full : Bool)
    (msg : String) :
    (applyFetchOutcome FetchMode.reset (FetchOutcome.ok items full) s).jobs
        = items ∧
    (applyFetchOutcome FetchMode.more (FetchOutcome.ok items full) s).jobs
        = mergeJobs s.jobs items ∧
    (applyFetchOutcome FetchMode.reset (FetchOutcome.ok items full) s).hasMore
        = full ∧
    (applyFetchOutcome FetchMode.reset (FetchOutcome.err msg) s).error
        = some msg ∧
    applyInitialLoadFinally true s = s ∧
    (applyInitialLoadFinally false s).loading = false :=
  ⟨rfl, rfl, rfl, rfl, rfl, rfl⟩

end Wrkr
